import Mathlib

/-!
Shallow embedding of the outlier / robust-statistics module
(`src/shap_app/webapp/components/outliers.py`) of the streamlit-shap-app
repository, together with theorems settling the frozen claims about it.

Numeric samples are modelled as lists of rationals (exact arithmetic in
place of IEEE floats); the IEEE special values produced by division by
zero are modelled explicitly by the `NpV` type (`nan`, `pinf`, `ninf`),
since the module's documented degenerate behaviour (zero standard
deviation / zero MAD) relies on NaN propagation.  The only genuinely
irrational quantity, `np.std` (a square root), is modelled over `ℝ`.
-/

/-- A numpy floating-point value: not-a-number, plus or minus infinity,
or a finite rational. -/
inductive NpV where
  | nan : NpV
  | pinf : NpV
  | ninf : NpV
  | fin (x : ℚ) : NpV
deriving DecidableEq, Repr

/-- Division of finite values with IEEE semantics: `0/0 = nan`,
`a/0 = ±inf` for `a ≠ 0`, ordinary division otherwise. -/
def npDivQ (a b : ℚ) : NpV :=
  if b = 0 then
    if a = 0 then .nan else if 0 < a then .pinf else .ninf
  else .fin (a / b)

/-- Absolute value, numpy style (`abs nan = nan`, `abs (±inf) = inf`). -/
def npAbsQ : NpV → NpV
  | .nan => .nan
  | .pinf => .pinf
  | .ninf => .pinf
  | .fin x => .fin |x|

/-- Elementwise comparison `v < t` against a finite threshold; any
comparison involving NaN is false. -/
def npLtQ : NpV → ℚ → Bool
  | .nan, _ => false
  | .pinf, _ => false
  | .ninf, _ => true
  | .fin x, t => decide (x < t)

/-- Elementwise comparison `v <= t` against a finite threshold. -/
def npLeQ : NpV → ℚ → Bool
  | .nan, _ => false
  | .pinf, _ => false
  | .ninf, _ => true
  | .fin x, t => decide (x ≤ t)

/-- Elementwise comparison `v >= b` against a finite bound. -/
def npGeQ : NpV → ℚ → Bool
  | .nan, _ => false
  | .pinf, _ => true
  | .ninf, _ => false
  | .fin x, b => decide (b ≤ x)

/-- IEEE addition on modelled values (used only inside percentile
interpolation). -/
def npAdd : NpV → NpV → NpV
  | .nan, _ => .nan
  | _, .nan => .nan
  | .pinf, .ninf => .nan
  | .ninf, .pinf => .nan
  | .pinf, _ => .pinf
  | .ninf, _ => .ninf
  | .fin _, .pinf => .pinf
  | .fin _, .ninf => .ninf
  | .fin x, .fin y => .fin (x + y)

/-- IEEE subtraction on modelled values. -/
def npSub : NpV → NpV → NpV
  | .nan, _ => .nan
  | _, .nan => .nan
  | .pinf, .pinf => .nan
  | .ninf, .ninf => .nan
  | .pinf, _ => .pinf
  | .ninf, _ => .ninf
  | .fin _, .pinf => .ninf
  | .fin _, .ninf => .pinf
  | .fin x, .fin y => .fin (x - y)

/-- IEEE multiplication by a finite scalar (`0 * ±inf = nan`). -/
def npSmul (c : ℚ) : NpV → NpV
  | .nan => .nan
  | .pinf => if c = 0 then .nan else if 0 < c then .pinf else .ninf
  | .ninf => if c = 0 then .nan else if 0 < c then .ninf else .pinf
  | .fin x => .fin (c * x)

/-- Whether a modelled value is NaN. -/
def npIsNan : NpV → Bool
  | .nan => true
  | _ => false

/-- Sort order used by numpy on floats: `-inf` before finite values
before `+inf`, with NaN sorted last. -/
def npSortLe : NpV → NpV → Prop
  | _, .nan => True
  | .nan, _ => False
  | .ninf, _ => True
  | _, .ninf => False
  | .fin x, .fin y => x ≤ y
  | .fin _, .pinf => True
  | .pinf, .pinf => True
  | .pinf, .fin _ => False

instance : DecidableRel npSortLe := by
  intro a b
  cases a <;> cases b <;> simp [npSortLe] <;> infer_instance

/-- Arithmetic mean of a list (`np.mean`); the empty list is never fed
into it by the theorems below. -/
def listMean (l : List ℚ) : ℚ := l.sum / l.length

/-- Population variance (`np.std` squared, `ddof = 0`). -/
def listVar (l : List ℚ) : ℚ := listMean (l.map (fun x => (x - listMean l) ^ 2))

/-- Median of a list (`np.median`): mean of the two middle order
statistics. -/
def npMedian (l : List ℚ) : ℚ :=
  let xs := List.insertionSort (· ≤ ·) l
  let n := l.length
  (xs.getD ((n - 1) / 2) 0 + xs.getD (n / 2) 0) / 2

/-- Percentile with linear interpolation (`np.percentile`, default
method): virtual index `h = (n-1) * q / 100`, interpolating between the
order statistics at `⌊h⌋` and `⌈h⌉`. -/
def npPercentile (l : List ℚ) (q : ℚ) : ℚ :=
  let xs := List.insertionSort (· ≤ ·) l
  let n := l.length
  let h : ℚ := ((n : ℚ) - 1) * q / 100
  let lo := xs.getD (⌊h⌋).toNat 0
  let hi := xs.getD (⌈h⌉).toNat 0
  lo + (h - (⌊h⌋ : ℚ)) * (hi - lo)

/-- Interpolation kernel of `np.percentile` on a list of modelled float
values whose percentile `q` has already been validated: numpy returns
NaN as soon as the data contains a NaN; otherwise it sorts (infinities
at the ends) and applies linear interpolation, computed with IEEE
arithmetic. -/
def npPercentileVal (l : List NpV) (q : ℚ) : NpV :=
  if l.any npIsNan then .nan
  else
    let xs := List.insertionSort npSortLe l
    let n := l.length
    let h : ℚ := ((n : ℚ) - 1) * q / 100
    let g : ℚ := h - (⌊h⌋ : ℚ)
    let a := xs.getD (⌊h⌋).toNat .nan
    let b := xs.getD (⌈h⌉).toNat .nan
    if (1 : ℚ) / 2 ≤ g then npSub b (npSmul (1 - g) (npSub b a))
    else npAdd a (npSmul g (npSub b a))


/-- A 1-D or 2-D numpy array of values of type `β` (2-D arrays are kept
as their list of rows, row-major, as `DataFrame.values` and numpy
expose them). -/
inductive Arr (β : Type) where
  | one (xs : List β) : Arr β
  | two (rows : List (List β)) : Arr β
deriving DecidableEq, Repr

/-- Shape-preserving elementwise map (numpy broadcasting of a scalar
operation over an array). -/
def Arr.map (f : α → β) : Arr α → Arr β
  | .one xs => .one (xs.map f)
  | .two rows => .two (rows.map (fun r => r.map f))

/-- The flattened element sequence of an array (reductions such as
`np.mean`, `np.median`, `np.percentile` flatten their input when no
axis is given). -/
def Arr.flat : Arr α → List α
  | .one xs => xs
  | .two rows => rows.flatten

/-- Input data of the outlier operations: a labeled table
(`pandas.DataFrame` with column names and rows) or a raw numpy array. -/
inductive PyData where
  | frame (cols : List String) (rows : List (List ℚ)) : PyData
  | array (a : Arr ℚ) : PyData

/-- The `column` argument: a string column name or an integer column
index (`None` is modelled by `Option`). -/
inductive ColSel where
  | name (s : String) : ColSel
  | idx (i : ℤ) : ColSel

/-- Python exceptions observable from this module:
`OutlierValidationException` (a `ValueError` subclass raised by
`validate_column`), the plain `ValueError` raised for a bad
`outlier_type`, and the `KeyError` / `IndexError` that column extraction
itself can raise. -/
inductive PyError where
  | outlierValidation (msg : String) : PyError
  | valueError (msg : String) : PyError
  | keyError (msg : String) : PyError
  | indexError (msg : String) : PyError
deriving DecidableEq, Repr

/-- Python `type(data).__name__` for the two accepted data types. -/
def pyTypeName : PyData → String
  | .frame _ _ => "DataFrame"
  | .array _ => "ndarray"

/-- Python `type(column).__name__` for the selector argument. -/
def colTypeName : Option ColSel → String
  | some (.name _) => "str"
  | some (.idx _) => "int"
  | none => "NoneType"

/-- The message of the `OutlierValidationException` raised by
`validate_column` on a type mismatch. -/
def invalidMsg (data : PyData) (column : Option ColSel) : String :=
  "Invalid input types. Expected a string column name for DataFrame or an integer column index for numpy array. Received "
    ++ pyTypeName data ++ " for data and " ++ colTypeName column ++ " for column."

/-- Python `int()` truncation toward zero. -/
def pyInt (q : ℚ) : ℤ := if q < 0 then ⌈q⌉ else ⌊q⌋

/-- The full `np.percentile` on modelled float values: numpy first
validates that the requested percentile lies in `[0, 100]` and raises
`ValueError` otherwise, then interpolates. -/
def npPercentileV (l : List NpV) (q : ℚ) : Except PyError NpV :=
  if q < 0 ∨ 100 < q then
    .error (.valueError "Percentiles must be in the range [0, 100]")
  else .ok (npPercentileVal l q)

/-- Embedding of `validate_column`: resolves the `(data, column)` pair
into a plain array, mirroring the `isinstance` dispatch of the source.
A labeled table with a string name yields that column; a labeled table
with `None` yields `data.values` (the 2-D row array, unflattened); an
unlabeled 2-D array with an integer yields that column (with Python
negative-index wraparound); an unlabeled array with `None` passes
through; every other combination raises `OutlierValidationException`. -/
def validate_column (data : PyData) (column : Option ColSel) : Except PyError (Arr ℚ) :=
  match data, column with
  | .frame cols rows, some (.name s) =>
      if s ∈ cols then .ok (.one (rows.map (fun r => r.getD (cols.indexOf s) 0)))
      else .error (.keyError s)
  | .frame _ rows, none => .ok (.two rows)
  | .array a, some (.idx i) =>
      match a with
      | .one _ => .error (.indexError "too many indices for array")
      | .two rows =>
          let c := (rows.headD []).length
          if -(c : ℤ) ≤ i ∧ i < (c : ℤ) then
            .ok (.one (rows.map (fun r => r.getD (if i < 0 then i + c else i).toNat 0)))
          else .error (.indexError "index out of bounds")
  | .array a, none => .ok a
  | _, _ => .error (.outlierValidation (invalidMsg data column))

/-- A numpy floating-point value over `ℝ`, for the one computation that
leaves the rationals (`np.std` is a square root). -/
inductive NpVR where
  | nan : NpVR
  | pinf : NpVR
  | ninf : NpVR
  | fin (x : ℝ) : NpVR

/-- Real-valued counterpart of `npDivQ`. -/
noncomputable def npDivR (a b : ℝ) : NpVR :=
  if b = 0 then
    if a = 0 then .nan else if 0 < a then .pinf else .ninf
  else .fin (a / b)

/-- Real-valued counterpart of `npAbsQ`. -/
def npAbsR : NpVR → NpVR
  | .nan => .nan
  | .pinf => .pinf
  | .ninf => .pinf
  | .fin x => .fin |x|

/-- Real-valued counterpart of `npLtQ` (any comparison involving NaN is
false). -/
noncomputable def npLtR : NpVR → ℝ → Bool
  | .nan, _ => false
  | .pinf, _ => false
  | .ninf, _ => true
  | .fin x, t => decide (x < t)

/-- Embedding of `remove_outliers_z_score`: validates the column, then
returns the mask `|x - mean| / std < threshold` computed with IEEE
semantics (`np.std` is the population standard deviation, the square
root of `listVar`). -/
noncomputable def remove_outliers_z_score (data : PyData) (column : Option ColSel)
    (threshold : ℚ) : Except PyError (Arr Bool) := do
  let v ← validate_column data column
  let mean := listMean v.flat
  let std_dev : ℝ := Real.sqrt (listVar v.flat)
  let z_scores := v.map (fun x : ℚ => npAbsR (npDivR ((x : ℝ) - (mean : ℝ)) std_dev))
  pure (z_scores.map (fun z => npLtR z (threshold : ℝ)))

/-- Embedding of `remove_outliers_tukey`: validates the column, takes
`Q1, Q3` as the 25th and 75th percentiles, and keeps the values inside
`[Q1 - k*IQR, Q3 + k*IQR]` (both ends inclusive). -/
def remove_outliers_tukey (data : PyData) (column : Option ColSel)
    (k : ℚ) : Except PyError (Arr Bool) := do
  let v ← validate_column data column
  let q1 := npPercentile v.flat 25
  let q3 := npPercentile v.flat 75
  let iqr := q3 - q1
  pure (v.map (fun x => decide (q1 - k * iqr ≤ x) && decide (x ≤ q3 + k * iqr)))

/-- Embedding of `remove_outliers_robust_z_score`: validates the
column, computes the median and the median absolute deviation, forms
the (signed) robust z-scores with IEEE division, and branches on
`outlier_type`; the `both` branch recomputes the scores with `np.abs`
exactly as the source does, and any other `outlier_type` raises
`ValueError`. -/
def remove_outliers_robust_z_score (data : PyData) (column : Option ColSel)
    (threshold : ℚ) (outlier_type : String) : Except PyError (Arr Bool) := do
  let v ← validate_column data column
  let median := npMedian v.flat
  let mad := npMedian (v.flat.map (fun x => |x - median|))
  let robust_z_scores := v.map (fun x => npDivQ (x - median) mad)
  if outlier_type = "upper" then
    pure (robust_z_scores.map (fun z => npLeQ z threshold))
  else if outlier_type = "lower" then
    pure (robust_z_scores.map (fun z => npGeQ z (-threshold)))
  else if outlier_type = "both" then
    pure ((v.map (fun x => npAbsQ (npDivQ (x - median) mad))).map (fun z => npLtQ z threshold))
  else
    throw (.valueError "Invalid outlier_type. Expected upper, lower, or both.")

/-- Result of `remove_outliers_percentile`: a scalar threshold for the
one-sided variants, a two-element array `[lower, upper]` for `both`. -/
inductive PercResult where
  | scalar (x : NpV) : PercResult
  | pair (lo hi : NpV) : PercResult
deriving DecidableEq, Repr

/-- Embedding of `remove_outliers_percentile`: same robust z-scores as
`remove_outliers_robust_z_score`, then a percentile of those scores
(`np.percentile` flattens its input): the `(100 - p*100)`-th for
`upper`, the `(p*100)`-th for `lower`, both for `both`; any other
`outlier_type` raises `ValueError`. -/
def remove_outliers_percentile (data : PyData) (column : Option ColSel)
    (percentile : ℚ) (outlier_type : String) : Except PyError PercResult := do
  let v ← validate_column data column
  let median := npMedian v.flat
  let mad := npMedian (v.flat.map (fun x => |x - median|))
  let robust_z_scores := v.map (fun x => npDivQ (x - median) mad)
  if outlier_type = "upper" then do
    let r ← npPercentileV robust_z_scores.flat (100 - percentile * 100)
    pure (.scalar r)
  else if outlier_type = "lower" then do
    let r ← npPercentileV robust_z_scores.flat (percentile * 100)
    pure (.scalar r)
  else if outlier_type = "both" then do
    let lo ← npPercentileV robust_z_scores.flat (percentile * 100)
    let hi ← npPercentileV robust_z_scores.flat (100 - percentile * 100)
    pure (.pair lo hi)
  else
    throw (.valueError "Invalid outlier_type. Expected upper, lower, or both.")

/-- Embedding of `remove_outliers_truncated_mean`: validates the
column, takes the `percentage`-th and `(100 - percentage)`-th
percentiles, and keeps the values inside that closed interval. -/
def remove_outliers_truncated_mean (data : PyData) (column : Option ColSel)
    (percentage : ℚ) : Except PyError (Arr Bool) := do
  let v ← validate_column data column
  let lower := npPercentile v.flat percentage
  let upper := npPercentile v.flat (100 - percentage)
  pure (v.map (fun x => decide (lower ≤ x) && decide (x ≤ upper)))

/-- Rank of position `i` under a stable argsort of `a`: the number of
positions holding a strictly smaller value, plus the earlier positions
holding an equal value. -/
def stableRank (a : List ℚ) (i : ℕ) : ℕ :=
  ((List.range a.length).filter
    (fun j => decide (a.getD j 0 < a.getD i 0 ∨ (a.getD j 0 = a.getD i 0 ∧ j < i)))).length

/-- Reading a rank-indexed array of length `n` with a Python index:
nonnegative indices below `n` read directly, indices in `[-n, 0)` wrap
around, anything else raises `IndexError`. -/
def pyGetF (f : ℕ → ℚ) (n : ℕ) (k : ℤ) : Except PyError ℚ :=
  if 0 ≤ k ∧ k < (n : ℤ) then .ok (f k.toNat)
  else if -(n : ℤ) ≤ k ∧ k < 0 then .ok (f (k + n).toNat)
  else .error (.indexError "index out of bounds")

/-- Reading a list with a Python index (wraparound and `IndexError`
semantics). -/
def pyGet (xs : List ℚ) (k : ℤ) : Except PyError ℚ :=
  pyGetF (fun j => xs.getD j 0) xs.length k

/-- A Python slice bound: negative bounds count from the end, and every
bound is clamped into `[0, n]` (slicing never raises). -/
def pySliceIdx (n : ℕ) (k : ℤ) : ℕ :=
  if k < 0 then ((n : ℤ) + k).toNat else min k.toNat n

/-- Embedding of scipy's `_winsorize1D` on a 1-D sample with inclusive
limits (the default): the values of sort rank below `int(lo*n)` are
replaced by the value read at index `int(lo*n)` of the sort (skipped
entirely when `lo` is falsy, i.e. zero; the read raises `IndexError`
when that index is out of range, e.g. `lo = 1` on a nonempty sample),
then the values of rank at least `n - int(hi*n)` are replaced by the
value then held at rank `n - int(hi*n) - 1` (a Python read: negative
indices wrap, out-of-range ones raise `IndexError`). -/
def winsorize1D (a : List ℚ) (lo hi : ℚ) : Except PyError (List ℚ) := do
  let n := a.length
  let srt := List.insertionSort (· ≤ ·) a
  let lowidx : ℤ := pyInt (lo * (n : ℚ))
  let lowCut : ℕ := pySliceIdx n lowidx
  let upidx : ℤ := (n : ℤ) - pyInt (hi * (n : ℚ))
  let upCut : ℕ := pySliceIdx n upidx
  let rankVal ←
    if lo ≠ 0 then do
      let lowval ← pyGet srt lowidx
      pure (fun j : ℕ => if j < lowCut then lowval else srt.getD j 0)
    else
      pure (fun j : ℕ => srt.getD j 0)
  let upval ← pyGetF rankVal n (upidx - 1)
  pure ((List.range n).map (fun i =>
    let r := stableRank a i
    if upCut ≤ r then upval
    else if lo ≠ 0 ∧ r < lowCut then rankVal r
    else a.getD i 0))

/-- Embedding of `winsorize_data`: validates the column and calls
`mstats.winsorize`, which first checks that each limit lies in `[0, 1]`
(raising `ValueError` otherwise, lower limit checked first) and then
winsorizes; with no axis given it ravels its input, so the result is
always 1-D. -/
def winsorize_data (data : PyData) (column : Option ColSel)
    (limits : ℚ × ℚ) : Except PyError (List ℚ) := do
  let v ← validate_column data column
  if limits.1 < 0 ∨ 1 < limits.1 then
    throw (.valueError "The proportion to cut from the beginning should be between 0. and 1.")
  else if limits.2 < 0 ∨ 1 < limits.2 then
    throw (.valueError "The proportion to cut from the end should be between 0. and 1.")
  else winsorize1D v.flat limits.1 limits.2

/-- The Z-score mask on a plain 1-D sample (the value wrapped by
`remove_outliers_z_score` when called on a raw 1-D array). -/
noncomputable def zScoreMask (l : List ℚ) (threshold : ℚ) : List Bool :=
  (l.map (fun x : ℚ =>
      npAbsR (npDivR ((x : ℝ) - (listMean l : ℝ)) (Real.sqrt (listVar l))))).map
    (fun z => npLtR z (threshold : ℝ))

/-- The signed robust z-scores of a 1-D sample. -/
def robustZScores (l : List ℚ) : List NpV :=
  l.map (fun x => npDivQ (x - npMedian l) (npMedian (l.map (fun y => |y - npMedian l|))))

/-- The `outlier_type = "upper"` robust mask on a 1-D sample. -/
def robustUpperMask (l : List ℚ) (threshold : ℚ) : List Bool :=
  (robustZScores l).map (fun z => npLeQ z threshold)

/-- The `outlier_type = "lower"` robust mask on a 1-D sample. -/
def robustLowerMask (l : List ℚ) (threshold : ℚ) : List Bool :=
  (robustZScores l).map (fun z => npGeQ z (-threshold))

/-- The `outlier_type = "both"` robust mask on a 1-D sample. -/
def robustBothMask (l : List ℚ) (threshold : ℚ) : List Bool :=
  (robustZScores l).map (fun z => npLtQ (npAbsQ z) threshold)

/-- The Tukey-fences mask on a 1-D sample. -/
def tukeyMask (l : List ℚ) (k : ℚ) : List Bool :=
  let q1 := npPercentile l 25
  let q3 := npPercentile l 75
  let iqr := q3 - q1
  l.map (fun x => decide (q1 - k * iqr ≤ x) && decide (x ≤ q3 + k * iqr))

/-- The truncated-mean mask on a 1-D sample. -/
def truncatedMeanMask (l : List ℚ) (percentage : ℚ) : List Bool :=
  l.map (fun x =>
    decide (npPercentile l percentage ≤ x) && decide (x ≤ npPercentile l (100 - percentage)))

/-- The `upper` threshold computed by `remove_outliers_percentile` on a
1-D sample. -/
def percentileUpperThreshold (l : List ℚ) (p : ℚ) : NpV :=
  npPercentileVal (robustZScores l) (100 - p * 100)

/-- The `lower` threshold computed by `remove_outliers_percentile` on a
1-D sample. -/
def percentileLowerThreshold (l : List ℚ) (p : ℚ) : NpV :=
  npPercentileVal (robustZScores l) (p * 100)

/-- On a raw 1-D array with no selector, `remove_outliers_z_score`
returns the 1-D Z-score mask. -/
theorem z_score_on_1d (l : List ℚ) (t : ℚ) :
    remove_outliers_z_score (.array (.one l)) none t = .ok (.one (zScoreMask l t)) := rfl

/-- On a raw 1-D array with no selector, the `upper` robust mask is
`robustUpperMask`. -/
theorem robust_upper_on_1d (l : List ℚ) (t : ℚ) :
    remove_outliers_robust_z_score (.array (.one l)) none t "upper" =
      .ok (.one (robustUpperMask l t)) := rfl

/-- On a raw 1-D array with no selector, the `lower` robust mask is
`robustLowerMask`. -/
theorem robust_lower_on_1d (l : List ℚ) (t : ℚ) :
    remove_outliers_robust_z_score (.array (.one l)) none t "lower" =
      .ok (.one (robustLowerMask l t)) := rfl

/-- On a raw 1-D array with no selector, the `both` robust mask is
`robustBothMask`. -/
theorem robust_both_on_1d (l : List ℚ) (t : ℚ) :
    remove_outliers_robust_z_score (.array (.one l)) none t "both" =
      .ok (.one (robustBothMask l t)) := by
  simp [remove_outliers_robust_z_score, validate_column, robustBothMask, robustZScores,
    Arr.map, Arr.flat, List.map_map, Bind.bind, Except.bind, Function.comp]
  rfl

/-- On a raw 1-D array with no selector, `remove_outliers_tukey`
returns the 1-D Tukey mask. -/
theorem tukey_on_1d (l : List ℚ) (k : ℚ) :
    remove_outliers_tukey (.array (.one l)) none k = .ok (.one (tukeyMask l k)) := rfl

/-- On a raw 1-D array with no selector, `remove_outliers_truncated_mean`
returns the 1-D truncated-mean mask. -/
theorem truncated_on_1d (l : List ℚ) (p : ℚ) :
    remove_outliers_truncated_mean (.array (.one l)) none p =
      .ok (.one (truncatedMeanMask l p)) := rfl

/-- On a raw 1-D array with no selector and limits inside `[0, 1]`,
`winsorize_data` passes the limit validation and returns the 1-D
winsorization. -/
theorem winsorize_on_1d (l : List ℚ) (lo hi : ℚ) (h1 : 0 ≤ lo) (h2 : lo ≤ 1)
    (h3 : 0 ≤ hi) (h4 : hi ≤ 1) :
    winsorize_data (.array (.one l)) none (lo, hi) = winsorize1D l lo hi := by
  have hc1 : ¬(lo < 0 ∨ 1 < lo) := by push_neg; exact ⟨h1, h2⟩
  have hc2 : ¬(hi < 0 ∨ 1 < hi) := by push_neg; exact ⟨h3, h4⟩
  simp only [winsorize_data, validate_column, Bind.bind, Except.bind, Arr.flat]
  rw [if_neg hc1, if_neg hc2]

/-- For a percentile parameter in `[0, 1]`, the upper percentile rank
`100 - p*100` passes the `[0, 100]` validation of `np.percentile`. -/
theorem npPercentileV_upper_ok (zs : List NpV) (p : ℚ) (hp0 : 0 ≤ p) (hp1 : p ≤ 1) :
    npPercentileV zs (100 - p * 100) = .ok (npPercentileVal zs (100 - p * 100)) := by
  rw [npPercentileV, if_neg (by push_neg; constructor <;> linarith)]

/-- For a percentile parameter in `[0, 1]`, the lower percentile rank
`p*100` passes the `[0, 100]` validation of `np.percentile`. -/
theorem npPercentileV_lower_ok (zs : List NpV) (p : ℚ) (hp0 : 0 ≤ p) (hp1 : p ≤ 1) :
    npPercentileV zs (p * 100) = .ok (npPercentileVal zs (p * 100)) := by
  rw [npPercentileV, if_neg (by push_neg; constructor <;> linarith)]

/-- On a raw 1-D array with no selector and a percentile parameter in
`[0, 1]`, the `upper` percentile threshold is
`percentileUpperThreshold`. -/
theorem percentile_upper_on_1d (l : List ℚ) (p : ℚ) (hp0 : 0 ≤ p) (hp1 : p ≤ 1) :
    remove_outliers_percentile (.array (.one l)) none p "upper" =
      .ok (.scalar (percentileUpperThreshold l p)) := by
  simp only [remove_outliers_percentile, validate_column, Bind.bind, Except.bind,
    Arr.flat, Arr.map, npPercentileV_upper_ok _ p hp0 hp1]
  rfl

/-- On a raw 1-D array with no selector and a percentile parameter in
`[0, 1]`, the `lower` percentile threshold is
`percentileLowerThreshold`. -/
theorem percentile_lower_on_1d (l : List ℚ) (p : ℚ) (hp0 : 0 ≤ p) (hp1 : p ≤ 1) :
    remove_outliers_percentile (.array (.one l)) none p "lower" =
      .ok (.scalar (percentileLowerThreshold l p)) := by
  simp only [remove_outliers_percentile, validate_column, Bind.bind, Except.bind,
    Arr.flat, Arr.map, npPercentileV_lower_ok _ p hp0 hp1]
  rfl

/-- On a raw 1-D array with no selector and a percentile parameter in
`[0, 1]`, the `both` percentile thresholds are the lower and upper ones
in that order. -/
theorem percentile_both_on_1d (l : List ℚ) (p : ℚ) (hp0 : 0 ≤ p) (hp1 : p ≤ 1) :
    remove_outliers_percentile (.array (.one l)) none p "both" =
      .ok (.pair (percentileLowerThreshold l p) (percentileUpperThreshold l p)) := by
  simp only [remove_outliers_percentile, validate_column, Bind.bind, Except.bind,
    Arr.flat, Arr.map, npPercentileV_lower_ok _ p hp0 hp1,
    npPercentileV_upper_ok _ p hp0 hp1]
  rfl

/-- Zipping two elementwise maps of the same list with `and` is the
map of the pointwise conjunction. -/
theorem zip_and_maps (zs : List NpV) (f g : NpV → Bool) :
    List.zipWith and (zs.map f) (zs.map g) = zs.map (fun z => f z && g z) := by
  induction zs with
  | nil => rfl
  | cons a t ih => simp [ih]

/-- Pointwise comparison of the `both` test with the conjunction of the
`upper` and `lower` tests: they agree on NaN and infinite scores, and on
a finite score whose absolute value is not exactly the threshold. -/
theorem both_eq_and_of_ne (z : NpV) (t : ℚ) (h : npAbsQ z ≠ .fin t) :
    npLtQ (npAbsQ z) t = (npLeQ z t && npGeQ z (-t)) := by
  cases z with
  | nan => rfl
  | pinf => rfl
  | ninf => rfl
  | fin x =>
      have hx : |x| ≠ t := by simpa [npAbsQ] using h
      rw [Bool.eq_iff_iff]
      simp only [npLtQ, npAbsQ, npLeQ, npGeQ, Bool.and_eq_true, decide_eq_true_eq]
      constructor
      · intro hlt
        rcases abs_lt.mp hlt with ⟨h1, h2⟩
        exact ⟨le_of_lt h2, le_of_lt h1⟩
      · rintro ⟨h1, h2⟩
        exact lt_of_le_of_ne (abs_le.mpr ⟨h2, h1⟩) hx

/-- Claim C2, counterexample: on the sample `[0, 2]` with threshold 1
(median 1, MAD 1, robust z-scores `[-1, 1]`), the `both` mask is
`[false, false]` while the `upper` and `lower` masks are both
`[true, true]`, so `both` is not the conjunction of `upper` and
`lower`: the `both` rule uses a strict comparison and the one-sided
rules non-strict ones, and they disagree exactly on the boundary. -/
theorem claim_C2_counterexample :
    remove_outliers_robust_z_score (.array (.one [0, 2])) none 1 "both" =
        .ok (.one [false, false]) ∧
      remove_outliers_robust_z_score (.array (.one [0, 2])) none 1 "upper" =
        .ok (.one [true, true]) ∧
      remove_outliers_robust_z_score (.array (.one [0, 2])) none 1 "lower" =
        .ok (.one [true, true]) ∧
      robustBothMask [0, 2] 1 ≠
        List.zipWith and (robustUpperMask [0, 2] 1) (robustLowerMask [0, 2] 1) := by
  have h1 : npMedian [0, 2] = 1 := by
    norm_num [npMedian, List.insertionSort, List.orderedInsert]
  have h2 : List.map (fun y => |y - (1 : ℚ)|) [0, 2] = [1, 1] := by norm_num
  have h3 : npMedian [(1 : ℚ), 1] = 1 := by
    norm_num [npMedian, List.insertionSort, List.orderedInsert]
  have hz : robustZScores [0, 2] = [.fin (-1), .fin 1] := by
    simp only [robustZScores]
    rw [h1, h2, h3]
    norm_num [npDivQ]
  have hb : robustBothMask [0, 2] 1 = [false, false] := by
    norm_num [robustBothMask, hz, npAbsQ, npLtQ]
  have hu : robustUpperMask [0, 2] 1 = [true, true] := by
    norm_num [robustUpperMask, hz, npLeQ]
  have hl : robustLowerMask [0, 2] 1 = [true, true] := by
    norm_num [robustLowerMask, hz, npGeQ]
  refine ⟨?_, ?_, ?_, ?_⟩
  · rw [robust_both_on_1d, hb]
  · rw [robust_upper_on_1d, hu]
  · rw [robust_lower_on_1d, hl]
  · rw [hb, hu, hl]
    decide

/-- Claim C2 (amended): the `both` mask equals the elementwise
conjunction of the `upper` and `lower` masks at the same threshold
whenever no observation's robust z-score has absolute value exactly
equal to the threshold (on the boundary, `both` drops the observation
while the conjunction keeps it; elsewhere, and on NaN or infinite
scores, the two sides agree). -/
theorem claim_C2 (l : List ℚ) (t : ℚ)
    (h : ∀ z ∈ robustZScores l, npAbsQ z ≠ .fin t) :
    robustBothMask l t = List.zipWith and (robustUpperMask l t) (robustLowerMask l t) ∧
      remove_outliers_robust_z_score (.array (.one l)) none t "both" =
        .ok (.one (List.zipWith and (robustUpperMask l t) (robustLowerMask l t))) := by
  have key : robustBothMask l t =
      List.zipWith and (robustUpperMask l t) (robustLowerMask l t) := by
    unfold robustBothMask robustUpperMask robustLowerMask
    rw [zip_and_maps]
    exact List.map_congr_left (fun z hz => both_eq_and_of_ne z t (h z hz))
  exact ⟨key, by rw [robust_both_on_1d, key]⟩

/-- Witness for claim C2 at the sample `[1, 2, 3, 4, 5, 100]` with
threshold 2, whose robust z-scores all have absolute value different
from 2. -/
theorem claim_C2_witness :
    (∀ z ∈ robustZScores [1, 2, 3, 4, 5, 100], npAbsQ z ≠ .fin 2) ∧
      robustBothMask [1, 2, 3, 4, 5, 100] 2 =
        List.zipWith and (robustUpperMask [1, 2, 3, 4, 5, 100] 2)
          (robustLowerMask [1, 2, 3, 4, 5, 100] 2) := by
  have h1 : npMedian [1, 2, 3, 4, 5, 100] = 7 / 2 := by
    norm_num [npMedian, List.insertionSort, List.orderedInsert]
  have h2 : List.map (fun y => |y - (7 / 2 : ℚ)|) [1, 2, 3, 4, 5, 100] =
      [5 / 2, 3 / 2, 1 / 2, 1 / 2, 3 / 2, 193 / 2] := by norm_num
  have h3 : npMedian [(5 : ℚ) / 2, 3 / 2, 1 / 2, 1 / 2, 3 / 2, 193 / 2] = 3 / 2 := by
    norm_num [npMedian, List.insertionSort, List.orderedInsert]
  have hz : robustZScores [1, 2, 3, 4, 5, 100] =
      [.fin (-5 / 3), .fin (-1), .fin (-1 / 3), .fin (1 / 3), .fin 1, .fin (193 / 3)] := by
    simp only [robustZScores]
    rw [h1, h2, h3]
    norm_num [npDivQ]
  have h : ∀ z ∈ robustZScores [1, 2, 3, 4, 5, 100], npAbsQ z ≠ NpV.fin 2 := by
    rw [hz]
    norm_num [npAbsQ]
    refine ⟨?_, ?_, ?_⟩
    · rw [abs_of_nonneg (by norm_num : (0 : ℚ) ≤ 5 / 3)]; norm_num
    · rw [abs_of_nonneg (by norm_num : (0 : ℚ) ≤ 1 / 3)]; norm_num
    · rw [abs_of_nonneg (by norm_num : (0 : ℚ) ≤ 193 / 3)]; norm_num
  exact ⟨h, (claim_C2 [1, 2, 3, 4, 5, 100] 2 h).1⟩

/-- The head of a sorted list is a lower bound for its members. -/
theorem sorted_getD_zero_le {xs : List ℚ} (hs : List.Sorted (· ≤ ·) xs) {x : ℚ}
    (hx : x ∈ xs) : xs.getD 0 0 ≤ x := by
  cases xs with
  | nil => cases hx
  | cons a t =>
      rcases List.mem_cons.mp hx with rfl | hxt
      · simp
      · simpa using List.rel_of_sorted_cons hs _ hxt

/-- The last element of a sorted list is an upper bound for its
members. -/
theorem le_sorted_getD_last : ∀ {xs : List ℚ}, List.Sorted (· ≤ ·) xs →
    ∀ {x : ℚ}, x ∈ xs → x ≤ xs.getD (xs.length - 1) 0
  | [], _, _, hx => absurd hx (List.not_mem_nil _)
  | [a], _, x, hx => by
      simp only [List.mem_singleton] at hx
      simp [hx]
  | a :: b :: u, hs, x, hx => by
      simp only [List.length_cons, Nat.add_sub_cancel, List.getD_cons_succ]
      have hgoal : (b :: u).getD ((b :: u).length - 1) 0 = (b :: u).getD u.length 0 := by
        simp
      rcases List.mem_cons.mp hx with rfl | hxt
      · have hmem : (b :: u).getD ((b :: u).length - 1) 0 ∈ b :: u := by
          rw [List.getD_eq_getElem _ _ (by simp)]
          exact List.getElem_mem _
        rw [← hgoal]
        exact List.rel_of_sorted_cons hs _ hmem
      · rw [← hgoal]
        exact le_sorted_getD_last hs.of_cons hxt

/-- The 0th percentile is the minimum (the first sorted element). -/
theorem npPercentile_zero (l : List ℚ) :
    npPercentile l 0 = (List.insertionSort (· ≤ ·) l).getD 0 0 := by
  simp [npPercentile]

/-- The 100th percentile of a nonempty list is the maximum (the last
sorted element). -/
theorem npPercentile_hundred (l : List ℚ) (hl : l ≠ []) :
    npPercentile l 100 = (List.insertionSort (· ≤ ·) l).getD (l.length - 1) 0 := by
  have hn : 1 ≤ l.length := List.length_pos.mpr hl
  have hcast : ((l.length : ℚ) - 1) * 100 / 100 = ((l.length - 1 : ℕ) : ℚ) := by
    push_cast [hn]
    ring
  simp only [npPercentile, hcast, Int.floor_natCast, Int.ceil_natCast, Int.toNat_natCast]
  ring_nf

/-- Sorting a constant list returns it unchanged. -/
theorem insertionSort_replicate (n : ℕ) (c : ℚ) :
    List.insertionSort (· ≤ ·) (List.replicate n c) = List.replicate n c := by
  refine List.eq_replicate_iff.mpr ⟨by simp [List.length_insertionSort], fun b hb => ?_⟩
  exact List.eq_of_mem_replicate
    ((List.perm_insertionSort (· ≤ ·) (List.replicate n c)).mem_iff.mp hb)

/-- The median of a nonempty constant list is its value. -/
theorem npMedian_replicate (n : ℕ) (c : ℚ) (hn : 0 < n) :
    npMedian (List.replicate n c) = c := by
  simp only [npMedian, insertionSort_replicate, List.length_replicate]
  rw [List.getD_eq_getElem _ _ (by simpa using by omega),
    List.getD_eq_getElem _ _ (by simpa using by omega)]
  simp only [List.getElem_replicate]
  ring

/-- The mean of a nonempty constant list is its value. -/
theorem listMean_replicate (n : ℕ) (c : ℚ) (hn : 0 < n) :
    listMean (List.replicate n c) = c := by
  have hne : (n : ℚ) ≠ 0 := Nat.cast_ne_zero.mpr hn.ne'
  simp only [listMean, List.sum_replicate, List.length_replicate, nsmul_eq_mul]
  field_simp

/-- The population variance of a constant list is zero. -/
theorem listVar_replicate (n : ℕ) (c : ℚ) : listVar (List.replicate n c) = 0 := by
  cases n with
  | zero => simp [listVar, listMean]
  | succ m =>
      simp only [listVar, listMean_replicate _ _ (Nat.succ_pos m), List.map_replicate,
        sub_self]
      simp [listMean, List.sum_replicate]

/-- The robust z-scores of a constant sample are all NaN (`0 / 0`). -/
theorem robustZScores_replicate (n : ℕ) (c : ℚ) :
    robustZScores (List.replicate n c) = List.replicate n .nan := by
  cases n with
  | zero => rfl
  | succ m =>
      simp only [robustZScores, npMedian_replicate _ _ (Nat.succ_pos m), List.map_replicate,
        sub_self, abs_zero]
      simp [npDivQ]

/-- Claim C4: on a constant sample (zero population standard deviation,
zero MAD), `remove_outliers_z_score` and
`remove_outliers_robust_z_score` (each of its three valid sides) raise
no error and return an all-false mask: every score is `0 / 0 = NaN` and
every comparison against NaN is false. -/
theorem claim_C4 (n : ℕ) (c t : ℚ) :
    (remove_outliers_z_score (.array (.one (List.replicate n c))) none t =
      .ok (.one (List.replicate n false))) ∧
    (remove_outliers_robust_z_score (.array (.one (List.replicate n c))) none t "both" =
      .ok (.one (List.replicate n false))) ∧
    (remove_outliers_robust_z_score (.array (.one (List.replicate n c))) none t "upper" =
      .ok (.one (List.replicate n false))) ∧
    (remove_outliers_robust_z_score (.array (.one (List.replicate n c))) none t "lower" =
      .ok (.one (List.replicate n false))) := by
  have hz : zScoreMask (List.replicate n c) t = List.replicate n false := by
    cases n with
    | zero => rfl
    | succ m =>
        simp only [zScoreMask, listVar_replicate, listMean_replicate _ _ (Nat.succ_pos m),
          List.map_replicate, sub_self]
        simp [npDivR, npAbsR, npLtR]
  have hzs := robustZScores_replicate n c
  have hb : robustBothMask (List.replicate n c) t = List.replicate n false := by
    simp [robustBothMask, hzs, List.map_replicate, npAbsQ, npLtQ]
  have hu : robustUpperMask (List.replicate n c) t = List.replicate n false := by
    simp [robustUpperMask, hzs, List.map_replicate, npLeQ]
  have hl : robustLowerMask (List.replicate n c) t = List.replicate n false := by
    simp [robustLowerMask, hzs, List.map_replicate, npGeQ]
  exact ⟨by rw [z_score_on_1d, hz], by rw [robust_both_on_1d, hb],
    by rw [robust_upper_on_1d, hu], by rw [robust_lower_on_1d, hl]⟩

/-- Claim C9: on every nonempty sample, `remove_outliers_truncated_mean`
with `percentage = 0` returns an all-true mask: the 0th percentile is
the sample minimum and the 100th percentile is the sample maximum, so
the closed interval `[lower, upper]` contains every observation. -/
theorem claim_C9 (l : List ℚ) (hl : l ≠ []) :
    remove_outliers_truncated_mean (.array (.one l)) none 0 =
        .ok (.one (List.replicate l.length true)) ∧
      truncatedMeanMask l 0 = List.replicate l.length true := by
  have key : truncatedMeanMask l 0 = List.replicate l.length true := by
    rw [truncatedMeanMask]
    refine List.eq_replicate_iff.mpr ⟨by simp, fun b hb => ?_⟩
    rcases List.mem_map.mp hb with ⟨x, hx, rfl⟩
    have hs := List.sorted_insertionSort (· ≤ ·) l
    have hmem : x ∈ List.insertionSort (· ≤ ·) l :=
      (List.perm_insertionSort (· ≤ ·) l).mem_iff.mpr hx
    have h0 : npPercentile l 0 ≤ x := by
      rw [npPercentile_zero]
      exact sorted_getD_zero_le hs hmem
    have h100 : x ≤ npPercentile l 100 := by
      rw [npPercentile_hundred l hl]
      have := le_sorted_getD_last hs hmem
      rwa [List.length_insertionSort] at this
    simp [h0, h100]
  exact ⟨by rw [truncated_on_1d, key], key⟩

/-- Witness for claim C9 at the concrete sample `[5, 1, 3]`. -/
theorem claim_C9_witness :
    ([5, 1, 3] : List ℚ) ≠ [] ∧
      remove_outliers_truncated_mean (.array (.one [5, 1, 3])) none 0 =
        .ok (.one [true, true, true]) := by
  have hl : ([5, 1, 3] : List ℚ) ≠ [] := by simp
  exact ⟨hl, (claim_C9 [5, 1, 3] hl).1⟩

/-- Indexing an elementwise map below the length reduces to the
function applied at the indexed element (defaults irrelevant). -/
theorem getD_map_of_lt {α β : Type} (f : α → β) (l : List α) (i : ℕ) (hi : i < l.length)
    (da : α) (db : β) : (l.map f).getD i db = f (l.getD i da) := by
  rw [List.getD_eq_getElem _ _ (by simpa using hi), List.getD_eq_getElem _ _ hi,
    List.getElem_map]

/-- Claim C7: for every nonempty sample and every `k ≥ 0`, the
Tukey-fences mask has the sample's length and retains the `i`-th value
iff `Q1 - k*IQR ≤ x ≤ Q3 + k*IQR` with both ends inclusive (`Q1`, `Q3`
the linearly interpolated 25th and 75th percentiles); consequently (at
`k = 3/2` in particular) every value lying within `[Q1, Q3]` is
retained. -/
theorem claim_C7 (l : List ℚ) (hl : l ≠ []) (k : ℚ) (hk : 0 ≤ k) (i : ℕ)
    (hi : i < l.length) :
    (remove_outliers_tukey (.array (.one l)) none k = .ok (.one (tukeyMask l k))) ∧
    (tukeyMask l k).length = l.length ∧
    ((tukeyMask l k).getD i false = true ↔
      (npPercentile l 25 - k * (npPercentile l 75 - npPercentile l 25) ≤ l.getD i 0 ∧
        l.getD i 0 ≤ npPercentile l 75 + k * (npPercentile l 75 - npPercentile l 25))) ∧
    (npPercentile l 25 ≤ l.getD i 0 → l.getD i 0 ≤ npPercentile l 75 →
      (tukeyMask l (3 / 2)).getD i false = true) := by
  have hiff : ∀ k' : ℚ, ((tukeyMask l k').getD i false = true ↔
      (npPercentile l 25 - k' * (npPercentile l 75 - npPercentile l 25) ≤ l.getD i 0 ∧
        l.getD i 0 ≤ npPercentile l 75 + k' * (npPercentile l 75 - npPercentile l 25))) := by
    intro k'
    simp only [tukeyMask]
    rw [getD_map_of_lt _ _ _ hi 0 false]
    simp [Bool.and_eq_true, decide_eq_true_eq]
  refine ⟨tukey_on_1d l k, by simp [tukeyMask], hiff k, fun h1 h2 => ?_⟩
  rw [hiff (3 / 2)]
  have hq : npPercentile l 25 ≤ npPercentile l 75 := le_trans h1 h2
  constructor <;> linarith

/-- Witness for claim C7 at the concrete sample
`[10, 12, 11, 13, 12, 1000]` with `k = 3/2` and index 1. -/
theorem claim_C7_witness :
    (([10, 12, 11, 13, 12, 1000] : List ℚ) ≠ [] ∧ (0 : ℚ) ≤ 3 / 2 ∧
        1 < ([10, 12, 11, 13, 12, 1000] : List ℚ).length) ∧
      (tukeyMask [10, 12, 11, 13, 12, 1000] (3 / 2)).length = 6 := by
  have hl : ([10, 12, 11, 13, 12, 1000] : List ℚ) ≠ [] := by simp
  have hk : (0 : ℚ) ≤ 3 / 2 := by norm_num
  have hi : 1 < ([10, 12, 11, 13, 12, 1000] : List ℚ).length := by simp
  refine ⟨⟨hl, hk, hi⟩, ?_⟩
  have := (claim_C7 [10, 12, 11, 13, 12, 1000] hl (3 / 2) hk 1 hi).2.1
  simpa using this

/-- Claim C6: on every valid (nonempty 1-D) sample,
`remove_outliers_robust_z_score` and `remove_outliers_percentile` raise
the `ValueError` for the side parameter whenever `outlier_type` is
outside `upper`, `lower`, `both`, and return normally for each of those
three values. -/
theorem claim_C6 (l : List ℚ) (hl : l ≠ []) (t p : ℚ) (hp0 : 0 ≤ p) (hp1 : p ≤ 1)
    (side : String)
    (hu : side ≠ "upper") (hlo : side ≠ "lower") (hb : side ≠ "both") :
    (remove_outliers_robust_z_score (.array (.one l)) none t side =
      .error (.valueError "Invalid outlier_type. Expected upper, lower, or both.")) ∧
    (remove_outliers_percentile (.array (.one l)) none p side =
      .error (.valueError "Invalid outlier_type. Expected upper, lower, or both.")) ∧
    (remove_outliers_robust_z_score (.array (.one l)) none t "upper" =
      .ok (.one (robustUpperMask l t))) ∧
    (remove_outliers_robust_z_score (.array (.one l)) none t "lower" =
      .ok (.one (robustLowerMask l t))) ∧
    (remove_outliers_robust_z_score (.array (.one l)) none t "both" =
      .ok (.one (robustBothMask l t))) ∧
    (remove_outliers_percentile (.array (.one l)) none p "upper" =
      .ok (.scalar (percentileUpperThreshold l p))) ∧
    (remove_outliers_percentile (.array (.one l)) none p "lower" =
      .ok (.scalar (percentileLowerThreshold l p))) ∧
    (remove_outliers_percentile (.array (.one l)) none p "both" =
      .ok (.pair (percentileLowerThreshold l p) (percentileUpperThreshold l p))) := by
  refine ⟨?_, ?_, robust_upper_on_1d l t, robust_lower_on_1d l t, robust_both_on_1d l t,
    percentile_upper_on_1d l p hp0 hp1, percentile_lower_on_1d l p hp0 hp1,
    percentile_both_on_1d l p hp0 hp1⟩
  · simp [remove_outliers_robust_z_score, validate_column, Bind.bind, Except.bind,
      hu, hlo, hb, throw, throwThe, MonadExcept.throw, MonadExceptOf.throw]
  · simp [remove_outliers_percentile, validate_column, Bind.bind, Except.bind,
      hu, hlo, hb, throw, throwThe, MonadExcept.throw, MonadExceptOf.throw]

/-- Witness for claim C6 at the sample `[1, 2]` with
`outlier_type = "sideways"`. -/
theorem claim_C6_witness :
    (([1, 2] : List ℚ) ≠ [] ∧ (0 : ℚ) ≤ 1 / 100 ∧ (1 / 100 : ℚ) ≤ 1 ∧
        "sideways" ≠ "upper" ∧ "sideways" ≠ "lower" ∧ "sideways" ≠ "both") ∧
      remove_outliers_robust_z_score (.array (.one [1, 2])) none 3 "sideways" =
        .error (.valueError "Invalid outlier_type. Expected upper, lower, or both.") := by
  have h0 : ([1, 2] : List ℚ) ≠ [] := by simp
  have hq0 : (0 : ℚ) ≤ 1 / 100 := by norm_num
  have hq1 : (1 / 100 : ℚ) ≤ 1 := by norm_num
  have h1 : "sideways" ≠ "upper" := by decide
  have h2 : "sideways" ≠ "lower" := by decide
  have h3 : "sideways" ≠ "both" := by decide
  exact ⟨⟨h0, hq0, hq1, h1, h2, h3⟩,
    (claim_C6 [1, 2] h0 3 (1 / 100) hq0 hq1 "sideways" h1 h2 h3).1⟩

/-- The stable argsort rank of a position is below the list length. -/
theorem stableRank_lt (a : List ℚ) (i : ℕ) (hi : i < a.length) :
    stableRank a i < a.length := by
  unfold stableRank
  have hmem : i ∈ List.range a.length := List.mem_range.mpr hi
  have hnot : ¬(decide (a.getD i 0 < a.getD i 0 ∨
      (a.getD i 0 = a.getD i 0 ∧ i < i)) = true) := by simp
  calc (List.filter _ (List.range a.length)).length
      < (List.range a.length).length :=
        List.length_filter_lt_length_iff_exists.mpr ⟨i, hmem, hnot⟩
    _ = a.length := List.length_range a.length

/-- A successful bind factors through a successful first stage. -/
theorem bind_ok_elim {α β : Type} {X : Except PyError α} {f : α → Except PyError β}
    {w : β} (h : Except.bind X f = .ok w) : ∃ v, X = .ok v ∧ f v = .ok w := by
  cases X with
  | error e => simp [Except.bind] at h
  | ok v => exact ⟨v, rfl, by simpa [Except.bind] using h⟩

/-- A Python read succeeds exactly on indices in `[-n, n)`. -/
theorem pyGetF_ok (f : ℕ → ℚ) (n : ℕ) (k : ℤ) (hk1 : -(n : ℤ) ≤ k) (hk2 : k < (n : ℤ)) :
    ∃ v, pyGetF f n k = .ok v := by
  unfold pyGetF
  by_cases h0 : 0 ≤ k
  · rw [if_pos ⟨h0, hk2⟩]
    exact ⟨_, rfl⟩
  · rw [if_neg (fun hc => h0 hc.1), if_pos ⟨hk1, by omega⟩]
    exact ⟨_, rfl⟩

/-- Every successful winsorization has the length of the input: the
returned list is the final positional map over the index range. -/
theorem winsorize1D_length (l : List ℚ) (lo hi : ℚ) (w : List ℚ)
    (h : winsorize1D l lo hi = .ok w) : w.length = l.length := by
  simp only [winsorize1D, Bind.bind] at h
  split at h
  · obtain ⟨lv, _, h2⟩ := bind_ok_elim h
    obtain ⟨rv, _, h3⟩ := bind_ok_elim h2
    obtain ⟨uv, _, h4⟩ := bind_ok_elim h3
    simp only [pure, Except.pure, Except.ok.injEq] at h4
    rw [← h4, List.length_map, List.length_range]
  · obtain ⟨rv, _, h3⟩ := bind_ok_elim h
    obtain ⟨uv, _, h4⟩ := bind_ok_elim h3
    simp only [pure, Except.pure, Except.ok.injEq] at h4
    rw [← h4, List.length_map, List.length_range]

/-- Winsorizing a nonempty sample with limits `(0, 0)` succeeds and is
the identity: the lower replacement is skipped (`0` is falsy), the
upper read at index `n - 1` is in range, and the upper cutoff equals
the length, so no rank reaches it. -/
theorem winsorize1D_zero (l : List ℚ) (hl : l ≠ []) : winsorize1D l 0 0 = .ok l := by
  have hn : 0 < l.length := List.length_pos.mpr hl
  have hpy : pyInt ((0 : ℚ) * (l.length : ℚ)) = 0 := by simp [pyInt]
  have hcut : pySliceIdx l.length (l.length : ℤ) = l.length := by simp [pySliceIdx]
  simp only [winsorize1D, hpy, sub_zero, ne_eq, not_true_eq_false, if_false, ite_false,
    Bind.bind, pure, Except.pure, Except.bind]
  simp only [pyGetF]
  rw [if_pos (⟨by omega, by omega⟩ :
    (0 : ℤ) ≤ (l.length : ℤ) - 1 ∧ (l.length : ℤ) - 1 < (l.length : ℤ))]
  simp only [hcut, false_and, if_false, ite_false]
  refine congrArg Except.ok (List.ext_getElem (by simp) (fun j hj1 hj2 => ?_))
  have hj : j < l.length := by simpa using hj1
  rw [List.getElem_map, List.getElem_range]
  rw [if_neg (by have := stableRank_lt l j hj; omega)]
  rw [List.getD_eq_getElem _ _ hj]

/-- Winsorizing a nonempty sample succeeds whenever `0 ≤ lo < 1` and
`0 ≤ hi ≤ 1`: the lower read index `int(lo*n)` then lies in `[0, n)`
and the upper read index `n - int(hi*n) - 1` lies in `[-1, n)`. -/
theorem winsorize1D_isOk (l : List ℚ) (hl : l ≠ []) (lo hi : ℚ) (h1 : 0 ≤ lo)
    (h2 : lo < 1) (h3 : 0 ≤ hi) (h4 : hi ≤ 1) :
    ∃ w : List ℚ, winsorize1D l lo hi = .ok w := by
  have hn : 0 < l.length := List.length_pos.mpr hl
  have hnq : (0 : ℚ) < (l.length : ℚ) := by exact_mod_cast hn
  have hlow0 : 0 ≤ pyInt (lo * (l.length : ℚ)) := by
    rw [pyInt, if_neg (not_lt.mpr (mul_nonneg h1 hnq.le))]
    exact Int.floor_nonneg.mpr (mul_nonneg h1 hnq.le)
  have hlown : pyInt (lo * (l.length : ℚ)) < (l.length : ℤ) := by
    rw [pyInt, if_neg (not_lt.mpr (mul_nonneg h1 hnq.le))]
    rw [Int.floor_lt]
    calc lo * (l.length : ℚ) < 1 * (l.length : ℚ) := mul_lt_mul_of_pos_right h2 hnq
      _ = ((l.length : ℤ) : ℚ) := by push_cast; ring
  have hhi0 : 0 ≤ pyInt (hi * (l.length : ℚ)) := by
    rw [pyInt, if_neg (not_lt.mpr (mul_nonneg h3 hnq.le))]
    exact Int.floor_nonneg.mpr (mul_nonneg h3 hnq.le)
  have hhin : pyInt (hi * (l.length : ℚ)) ≤ (l.length : ℤ) := by
    rw [pyInt, if_neg (not_lt.mpr (mul_nonneg h3 hnq.le))]
    have h5 : hi * (l.length : ℚ) ≤ (((l.length : ℤ) : ℚ)) := by
      calc hi * (l.length : ℚ) ≤ 1 * (l.length : ℚ) :=
            mul_le_mul_of_nonneg_right h4 hnq.le
        _ = ((l.length : ℤ) : ℚ) := by push_cast; ring
    have h6 := Int.floor_le_floor h5
    simpa [Int.floor_intCast] using h6
  simp only [winsorize1D, Bind.bind]
  by_cases hlo : lo = 0
  · subst hlo
    simp only [ne_eq, not_true_eq_false, if_false, ite_false, pure, Except.pure,
      Except.bind]
    simp only [pyGetF]
    by_cases hup : (0 : ℤ) ≤ (l.length : ℤ) - pyInt (hi * (l.length : ℚ)) - 1
    · rw [if_pos ⟨hup, by omega⟩]
      exact ⟨_, rfl⟩
    · rw [if_neg (fun hc => hup hc.1), if_pos ⟨by omega, by omega⟩]
      exact ⟨_, rfl⟩
  · rw [if_pos hlo]
    simp only [pyGet, pyGetF, List.length_insertionSort]
    rw [if_pos ⟨hlow0, hlown⟩]
    simp only [Except.bind, pure, Except.pure]
    by_cases hup : (0 : ℤ) ≤ (l.length : ℤ) - pyInt (hi * (l.length : ℚ)) - 1
    · rw [if_pos ⟨hup, by omega⟩]
      exact ⟨_, rfl⟩
    · rw [if_neg (fun hc => hup hc.1), if_pos ⟨by omega, by omega⟩]
      exact ⟨_, rfl⟩

/-- Claim C8, counterexample: on the sample `[1, 2]` with limits
`(1, 0)` (a limit scipy itself accepts as within `[0, 1]`), winsorizing
raises `IndexError` instead of returning a sequence: the lower
replacement reads the sort at index `int(1*2) = 2`, which is out of
range. -/
theorem claim_C8_counterexample :
    winsorize_data (.array (.one [1, 2])) none (1, 0) =
      .error (.indexError "index out of bounds") := by
  rw [winsorize_on_1d [1, 2] 1 0 zero_le_one le_rfl le_rfl zero_le_one]
  have hpy : pyInt ((1 : ℚ) * (([1, 2] : List ℚ).length : ℚ)) = 2 := by
    rw [show (1 : ℚ) * (([1, 2] : List ℚ).length : ℚ) = ((2 : ℤ) : ℚ) by norm_num,
      pyInt, if_neg (by norm_num), Int.floor_intCast]
  simp only [winsorize1D, hpy, Bind.bind, Except.bind, ne_eq, one_ne_zero,
    not_false_eq_true, if_true, ite_true, pyGet, pyGetF, List.length_insertionSort]
  norm_num

/-- Claim C8 (amended): `winsorize_data` on a nonempty 1-D sample
returns a sequence of the same length (positionally, so in the same
order) for all limits with `0 ≤ lo < 1` and `0 ≤ hi ≤ 1`, and with
limits `(0, 0)` it returns the sample unchanged; at `lo = 1` the lower
replacement raises `IndexError` instead, and limits outside `[0, 1]`
raise `ValueError` up front. -/
theorem claim_C8 (l : List ℚ) (hl : l ≠ []) (lo hi : ℚ) (h1 : 0 ≤ lo) (h2 : lo < 1)
    (h3 : 0 ≤ hi) (h4 : hi ≤ 1) :
    (∃ w : List ℚ, winsorize_data (.array (.one l)) none (lo, hi) = .ok w ∧
      w.length = l.length) ∧
    winsorize_data (.array (.one l)) none (0, 0) = .ok l := by
  constructor
  · obtain ⟨w, hw⟩ := winsorize1D_isOk l hl lo hi h1 h2 h3 h4
    exact ⟨w, by rw [winsorize_on_1d l lo hi h1 (le_of_lt h2) h3 h4, hw],
      winsorize1D_length l lo hi w hw⟩
  · rw [winsorize_on_1d l 0 0 le_rfl zero_le_one le_rfl zero_le_one,
      winsorize1D_zero l hl]

/-- Witness for claim C8 at the sample `[3, 1, 2]` with limits
`(1/10, 1/10)`. -/
theorem claim_C8_witness :
    (([3, 1, 2] : List ℚ) ≠ [] ∧ (0 : ℚ) ≤ 1 / 10 ∧ (1 / 10 : ℚ) < 1 ∧
        (1 / 10 : ℚ) ≤ 1) ∧
      winsorize_data (.array (.one [3, 1, 2])) none (0, 0) = .ok [3, 1, 2] := by
  have hl : ([3, 1, 2] : List ℚ) ≠ [] := by simp
  have ha : (0 : ℚ) ≤ 1 / 10 := by norm_num
  have hb : (1 / 10 : ℚ) < 1 := by norm_num
  have hc : (1 / 10 : ℚ) ≤ 1 := by norm_num
  exact ⟨⟨hl, ha, hb, hc⟩, (claim_C8 [3, 1, 2] hl (1 / 10) (1 / 10) ha hb ha hc).2⟩

/-- The population variance is nonnegative. -/
theorem listVar_nonneg (l : List ℚ) : 0 ≤ listVar l := by
  unfold listVar listMean
  apply div_nonneg
  · apply List.sum_nonneg
    intro x hx
    rcases List.mem_map.mp hx with ⟨y, _, rfl⟩
    positivity
  · exact Nat.cast_nonneg _

/-- Comparing `|a| / sqrt v` against a positive threshold is comparing
the squares. -/
theorem abs_div_sqrt_lt_iff (a v t : ℝ) (hv : 0 < v) (ht : 0 < t) :
    |a| / Real.sqrt v < t ↔ a ^ 2 < t ^ 2 * v := by
  rw [div_lt_iff₀ (Real.sqrt_pos.mpr hv)]
  have hsq : (t * Real.sqrt v) ^ 2 = t ^ 2 * v := by
    rw [mul_pow, Real.sq_sqrt hv.le]
  constructor
  · intro h
    calc a ^ 2 = |a| ^ 2 := (sq_abs a).symm
      _ < (t * Real.sqrt v) ^ 2 := by
          exact pow_lt_pow_left₀ h (abs_nonneg a) (by norm_num)
      _ = t ^ 2 * v := hsq
  · intro h
    have h1 : |a| ^ 2 < (t * Real.sqrt v) ^ 2 := by rw [sq_abs, hsq]; exact h
    have h2 : 0 ≤ t * Real.sqrt v := mul_nonneg ht.le (Real.sqrt_nonneg v)
    exact lt_of_pow_lt_pow_left₀ 2 h2 h1

/-- A Z-score entry evaluates to `true` when the squared deviation is
below the squared threshold times the variance. -/
theorem zentry_true (x m v t : ℚ) (hv : 0 < v) (ht : 0 < t)
    (h : (x - m) ^ 2 < t ^ 2 * v) :
    npLtR (npAbsR (npDivR ((x : ℝ) - (m : ℝ)) (Real.sqrt (v : ℝ)))) (t : ℝ) = true := by
  have hvr : (0 : ℝ) < (v : ℝ) := by exact_mod_cast hv
  have hs : Real.sqrt (v : ℝ) ≠ 0 := (Real.sqrt_pos.mpr hvr).ne'
  simp only [npDivR, if_neg hs, npAbsR, npLtR, decide_eq_true_eq]
  rw [abs_div, abs_of_nonneg (Real.sqrt_nonneg _),
    abs_div_sqrt_lt_iff _ _ _ hvr (by exact_mod_cast ht)]
  exact_mod_cast h

/-- A Z-score entry evaluates to `false` when the squared deviation
reaches the squared threshold times the variance. -/
theorem zentry_false (x m v t : ℚ) (hv : 0 < v) (ht : 0 < t)
    (h : t ^ 2 * v ≤ (x - m) ^ 2) :
    npLtR (npAbsR (npDivR ((x : ℝ) - (m : ℝ)) (Real.sqrt (v : ℝ)))) (t : ℝ) = false := by
  have hvr : (0 : ℝ) < (v : ℝ) := by exact_mod_cast hv
  have hs : Real.sqrt (v : ℝ) ≠ 0 := (Real.sqrt_pos.mpr hvr).ne'
  simp only [npDivR, if_neg hs, npAbsR, npLtR, decide_eq_false_iff_not]
  rw [abs_div, abs_of_nonneg (Real.sqrt_nonneg _),
    abs_div_sqrt_lt_iff _ _ _ hvr (by exact_mod_cast ht)]
  exact not_lt.mpr (by exact_mod_cast h)

/-- On a sample with nonzero variance, the `i`-th Z-score mask entry is
true exactly when the absolute deviation over the standard deviation is
below the threshold. -/
theorem zScoreMask_entry (l : List ℚ) (t : ℚ) (hv : listVar l ≠ 0) (i : ℕ)
    (hi : i < l.length) :
    ((zScoreMask l t).getD i false = true ↔
      |(l.getD i 0 : ℝ) - (listMean l : ℝ)| / Real.sqrt ((listVar l : ℝ)) < (t : ℝ)) := by
  have hvpos : 0 < listVar l := lt_of_le_of_ne (listVar_nonneg l) (Ne.symm hv)
  have hvr : (0 : ℝ) < ((listVar l : ℚ) : ℝ) := by exact_mod_cast hvpos
  have hs : Real.sqrt ((listVar l : ℚ) : ℝ) ≠ 0 := (Real.sqrt_pos.mpr hvr).ne'
  unfold zScoreMask
  rw [getD_map_of_lt _ _ _ (by simpa using hi) NpVR.nan false,
    getD_map_of_lt _ _ _ hi 0 NpVR.nan]
  simp only [npDivR, if_neg hs, npAbsR, npLtR, decide_eq_true_eq]
  rw [abs_div, abs_of_nonneg (Real.sqrt_nonneg _)]

/-- The variance of the concrete sample `[1, 2, 3, 4, 5, 100]`. -/
theorem listVar_sampleA : listVar [1, 2, 3, 4, 5, 100] = 47105 / 36 := by
  have hm : listMean [1, 2, 3, 4, 5, 100] = 115 / 6 := by norm_num [listMean]
  simp only [listVar, hm]
  norm_num [listMean]

/-- Claim C1: on every sample with nonzero population variance, the
Z-score mask has the sample's length and its `i`-th entry is true iff
`|x_i - mean| / std < threshold`; in particular, on `[1,2,3,4,5,100]`
with threshold 2 the mask is `[true,true,true,true,true,false]`. -/
theorem claim_C1 :
    (∀ (l : List ℚ) (t : ℚ), listVar l ≠ 0 → ∀ i, i < l.length →
      (remove_outliers_z_score (.array (.one l)) none t = .ok (.one (zScoreMask l t))) ∧
      (zScoreMask l t).length = l.length ∧
      ((zScoreMask l t).getD i false = true ↔
        |(l.getD i 0 : ℝ) - (listMean l : ℝ)| / Real.sqrt ((listVar l : ℝ)) < (t : ℝ))) ∧
    remove_outliers_z_score (.array (.one [1, 2, 3, 4, 5, 100])) none 2 =
      .ok (.one [true, true, true, true, true, false]) := by
  constructor
  · intro l t hv i hi
    exact ⟨z_score_on_1d l t, by simp [zScoreMask], zScoreMask_entry l t hv i hi⟩
  · rw [z_score_on_1d]
    have hm : listMean [1, 2, 3, 4, 5, 100] = 115 / 6 := by norm_num [listMean]
    have hmask : zScoreMask [1, 2, 3, 4, 5, 100] 2 =
        [true, true, true, true, true, false] := by
      simp only [zScoreMask, hm, listVar_sampleA, List.map_cons, List.map_nil]
      rw [zentry_true 1 (115 / 6) (47105 / 36) 2 (by norm_num) (by norm_num) (by norm_num),
        zentry_true 2 (115 / 6) (47105 / 36) 2 (by norm_num) (by norm_num) (by norm_num),
        zentry_true 3 (115 / 6) (47105 / 36) 2 (by norm_num) (by norm_num) (by norm_num),
        zentry_true 4 (115 / 6) (47105 / 36) 2 (by norm_num) (by norm_num) (by norm_num),
        zentry_true 5 (115 / 6) (47105 / 36) 2 (by norm_num) (by norm_num) (by norm_num),
        zentry_false 100 (115 / 6) (47105 / 36) 2 (by norm_num) (by norm_num) (by norm_num)]
    rw [hmask]

/-- Witness for claim C1 at the sample `[1, 2, 3, 4, 5, 100]` with
threshold 2 and index 5. -/
theorem claim_C1_witness :
    (listVar [1, 2, 3, 4, 5, 100] ≠ 0 ∧ 5 < ([1, 2, 3, 4, 5, 100] : List ℚ).length) ∧
      (zScoreMask [1, 2, 3, 4, 5, 100] 2).length = 6 := by
  have hv : listVar [1, 2, 3, 4, 5, 100] ≠ 0 := by rw [listVar_sampleA]; norm_num
  have hi : 5 < ([1, 2, 3, 4, 5, 100] : List ℚ).length := by simp
  refine ⟨⟨hv, hi⟩, ?_⟩
  have := (claim_C1.1 [1, 2, 3, 4, 5, 100] 2 hv 5 hi).2.1
  simpa using this

/-- Claim C3, counterexample: on the labeled table with columns
`a, b` and rows `[1,2], [3,4]`, selector resolution with selector `None`
returns the 2-D row array `[[1,2],[3,4]]` (the table's `.values`), not
the flattened 1-D sequence `[1,2,3,4]` the claim asserts. -/
theorem claim_C3_counterexample :
    validate_column (.frame ["a", "b"] [[1, 2], [3, 4]]) none = .ok (.two [[1, 2], [3, 4]]) ∧
      validate_column (.frame ["a", "b"] [[1, 2], [3, 4]]) none ≠ .ok (.one [1, 2, 3, 4]) := by
  refine ⟨rfl, fun h => ?_⟩
  rw [validate_column] at h
  simp at h

/-- Claim C3 (amended): for every labeled table passed with column
selector `None`, `validate_column` returns the table's values as the
2-D array of its rows, unflattened (a 1-D sequence is produced only by
the other selector forms). -/
theorem claim_C3 : ∀ (cols : List String) (rows : List (List ℚ)),
    validate_column (.frame cols rows) none = .ok (.two rows) :=
  fun _ _ => rfl

/-- Claim C5: every outlier operation called with a labeled table and
an integer selector, or with an unlabeled array and a string selector,
fails with the `OutlierValidationException` of `validate_column`
(carrying the mismatch message) and produces no mask, threshold, or
transformed sample. -/
theorem claim_C5 : ∀ (cols : List String) (rows : List (List ℚ)) (i : ℤ) (s : String)
    (a : Arr ℚ) (t k p : ℚ) (side : String) (lim : ℚ × ℚ),
    (remove_outliers_z_score (.frame cols rows) (some (.idx i)) t =
      .error (.outlierValidation (invalidMsg (.frame cols rows) (some (.idx i))))) ∧
    (remove_outliers_z_score (.array a) (some (.name s)) t =
      .error (.outlierValidation (invalidMsg (.array a) (some (.name s))))) ∧
    (remove_outliers_tukey (.frame cols rows) (some (.idx i)) k =
      .error (.outlierValidation (invalidMsg (.frame cols rows) (some (.idx i))))) ∧
    (remove_outliers_tukey (.array a) (some (.name s)) k =
      .error (.outlierValidation (invalidMsg (.array a) (some (.name s))))) ∧
    (remove_outliers_robust_z_score (.frame cols rows) (some (.idx i)) t side =
      .error (.outlierValidation (invalidMsg (.frame cols rows) (some (.idx i))))) ∧
    (remove_outliers_robust_z_score (.array a) (some (.name s)) t side =
      .error (.outlierValidation (invalidMsg (.array a) (some (.name s))))) ∧
    (remove_outliers_percentile (.frame cols rows) (some (.idx i)) p side =
      .error (.outlierValidation (invalidMsg (.frame cols rows) (some (.idx i))))) ∧
    (remove_outliers_percentile (.array a) (some (.name s)) p side =
      .error (.outlierValidation (invalidMsg (.array a) (some (.name s))))) ∧
    (remove_outliers_truncated_mean (.frame cols rows) (some (.idx i)) p =
      .error (.outlierValidation (invalidMsg (.frame cols rows) (some (.idx i))))) ∧
    (remove_outliers_truncated_mean (.array a) (some (.name s)) p =
      .error (.outlierValidation (invalidMsg (.array a) (some (.name s))))) ∧
    (winsorize_data (.frame cols rows) (some (.idx i)) lim =
      .error (.outlierValidation (invalidMsg (.frame cols rows) (some (.idx i))))) ∧
    (winsorize_data (.array a) (some (.name s)) lim =
      .error (.outlierValidation (invalidMsg (.array a) (some (.name s))))) :=
  fun _ _ _ _ _ _ _ _ _ _ =>
    ⟨rfl, rfl, rfl, rfl, rfl, rfl, rfl, rfl, rfl, rfl, rfl, rfl⟩

/-- Claim C10: in `remove_outliers_robust_z_score` and
`remove_outliers_percentile`, selector validation precedes the
side-parameter check: with a mismatched selector and an invalid
`outlier_type` simultaneously, the result is the
`OutlierValidationException` of `validate_column` and never the
`ValueError` for the side parameter. -/
theorem claim_C10 (cols : List String) (rows : List (List ℚ)) (i : ℤ) (s : String)
    (a : Arr ℚ) (t p : ℚ) (side : String)
    (hu : side ≠ "upper") (hl : side ≠ "lower") (hb : side ≠ "both") :
    (remove_outliers_robust_z_score (.frame cols rows) (some (.idx i)) t side =
      .error (.outlierValidation (invalidMsg (.frame cols rows) (some (.idx i))))) ∧
    (remove_outliers_robust_z_score (.array a) (some (.name s)) t side =
      .error (.outlierValidation (invalidMsg (.array a) (some (.name s))))) ∧
    (remove_outliers_percentile (.frame cols rows) (some (.idx i)) p side =
      .error (.outlierValidation (invalidMsg (.frame cols rows) (some (.idx i))))) ∧
    (remove_outliers_percentile (.array a) (some (.name s)) p side =
      .error (.outlierValidation (invalidMsg (.array a) (some (.name s))))) ∧
    (∀ m, remove_outliers_robust_z_score (.frame cols rows) (some (.idx i)) t side ≠
      .error (.valueError m)) ∧
    (∀ m, remove_outliers_percentile (.frame cols rows) (some (.idx i)) p side ≠
      .error (.valueError m)) := by
  refine ⟨rfl, rfl, rfl, rfl, fun m h => ?_, fun m h => ?_⟩
  · have h2 := (show remove_outliers_robust_z_score (.frame cols rows) (some (.idx i)) t side =
        .error (.outlierValidation (invalidMsg (.frame cols rows) (some (.idx i)))) from
          rfl).symm.trans h
    simp at h2
  · have h2 := (show remove_outliers_percentile (.frame cols rows) (some (.idx i)) p side =
        .error (.outlierValidation (invalidMsg (.frame cols rows) (some (.idx i)))) from
          rfl).symm.trans h
    simp at h2

/-- Witness for claim C10 at a fully concrete call. -/
theorem claim_C10_witness :
    ("sideways" ≠ "upper" ∧ "sideways" ≠ "lower" ∧ "sideways" ≠ "both") ∧
      remove_outliers_robust_z_score (.frame ["a"] [[1], [2]]) (some (.idx 0)) 3 "sideways" =
        .error (.outlierValidation
          (invalidMsg (.frame ["a"] [[1], [2]]) (some (.idx 0)))) := by
  have hu : "sideways" ≠ "upper" := by decide
  have hl : "sideways" ≠ "lower" := by decide
  have hb : "sideways" ≠ "both" := by decide
  exact ⟨⟨hu, hl, hb⟩,
    (claim_C10 ["a"] [[1], [2]] 0 "x" (.one [1]) 3 (1 / 100) "sideways" hu hl hb).1⟩





